import Mathlib

/-!
Verification of the compatibility-resolution core of ascend-docker-kit:
`adk_core/version.py` (PEP 440 version ordering, delegated by the source to
`packaging.version.Version`), `adk_core/models.py` (the pydantic data model
and its construction-time validators) and `adk_core/matrix.py`
(`CompatibilityResolver`).

Python exceptions are modelled with `Except PyExc`; functions that the source
code can make raise are embedded monadically, so "never raises" is the
statement that the embedding returns `.ok`.  Machine-independent data
(strings, lists, dictionaries in insertion order) are modelled by `String`,
`List`, and association lists.
-/

/-! ### The version value model (packaging.version.Version, PEP 440)

`adk_core/version.py` delegates parsing and comparison to
`packaging.version.Version`.  The model below follows PEP 440 / packaging's
`VERSION_PATTERN` regular expression and `_cmpkey`: a version is an optional
epoch, a non-empty dotted release, optional pre-release (a/b/rc with number),
optional post-release and dev-release numbers, and an optional local label.
Case folding and the whitespace the pattern accepts are modelled for ASCII. -/

/-- One segment of a PEP 440 local version label: packaging turns an
all-digit part into an integer and keeps other parts as (lowercased)
strings. -/
inductive LocalSeg where
  | num : Nat → LocalSeg
  | str : String → LocalSeg
deriving DecidableEq

/-- A parsed PEP 440 version, as `packaging.version.Version` stores it:
epoch, release tuple, normalized pre-release letter with its number,
post-release number, dev-release number, and the local label segments
(`none` when no `+local` part is present). -/
structure PyVersion where
  epoch : Nat
  release : List Nat
  pre : Option (String × Nat)
  post : Option Nat
  dev : Option Nat
  localSegs : Option (List LocalSeg)
deriving DecidableEq

/-- Whitespace accepted around a version by packaging's anchored pattern. -/
def isSpaceChar (c : Char) : Bool :=
  c = ' ' || c = '\t' || c = '\n' || c = '\r' || c = '\x0b' || c = '\x0c'

/-- A separator character `[-_.]` of the PEP 440 grammar. -/
def isSepChar (c : Char) : Bool :=
  c = '-' || c = '_' || c = '.'

/-- Characters allowed in a local version segment (`[a-z0-9]` after case
folding). -/
def isLocalChar (c : Char) : Bool :=
  c.isDigit || ('a' ≤ c && c ≤ 'z')

/-- Numeric value of a non-empty digit string (as Python's `int`). -/
def digitsToNat (ds : List Char) : Nat :=
  ds.foldl (fun n c => n * 10 + (c.toNat - 48)) 0

/-- Strip the whitespace the anchored pattern allows before and after the
version text. -/
def trimSpaces (cs : List Char) : List Char :=
  ((cs.dropWhile isSpaceChar).reverse.dropWhile isSpaceChar).reverse

/-- Consume at most one separator character (the grammar's `[-_.]?`). -/
def dropSep (cs : List Char) : List Char :=
  match cs with
  | c :: rest => if isSepChar c then rest else cs
  | [] => []

/-- First keyword of `kws` (tried in the regular expression's alternation
order) that is a prefix of `cs`, with the rest of the input. -/
def matchKw : List String → List Char → Option (String × List Char)
  | [], _ => none
  | kw :: kws, cs =>
    if kw.data.isPrefixOf cs then some (kw, cs.drop kw.data.length)
    else matchKw kws cs

/-- The pre-release letters, in the alternation order of `VERSION_PATTERN`. -/
def preKws : List String := ["alpha", "a", "beta", "b", "preview", "pre", "c", "rc"]

/-- The worded post-release letters, in alternation order. -/
def postKws : List String := ["post", "rev", "r"]

/-- Normalization of a pre-release letter, as packaging's
`_parse_letter_version`. -/
def normalizePreLetter (kw : String) : String :=
  if kw = "alpha" then "a"
  else if kw = "beta" then "b"
  else if kw = "c" || kw = "pre" || kw = "preview" then "rc"
  else kw

/-- Parse an optional `[-_.]? letter [-_.]? number?` group (used for the pre
and dev parts).  Returns the letter as matched, its number (0 when absent),
and the remaining input; `none` when the letter is not there. -/
def tryLetterNum (kws : List String) (cs : List Char) : Option (String × Nat × List Char) :=
  match matchKw kws (dropSep cs) with
  | none => none
  | some (kw, rest) =>
    let rest2 := dropSep rest
    let (ds, rest3) := rest2.span Char.isDigit
    if ds.isEmpty then some (kw, 0, rest2) else some (kw, digitsToNat ds, rest3)

/-- Parse an optional post-release: either `-N` (the pattern's first
alternative) or `[-_.]? (post|rev|r) [-_.]? N?`. -/
def tryPost (cs : List Char) : Option (Nat × List Char) :=
  let kwPath :=
    match tryLetterNum postKws cs with
    | some (_, n, rest) => some (n, rest)
    | none => none
  match cs with
  | '-' :: rest =>
    let (ds, rest2) := rest.span Char.isDigit
    if ds.isEmpty then kwPath else some (digitsToNat ds, rest2)
  | _ => kwPath

/-- Consume the `(\.[0-9]+)*` tail of the release segment list.  `fuel` is an
upper bound on the number of segments (the input length suffices). -/
def parseReleaseTail : Nat → List Char → List Nat × List Char
  | 0, cs => ([], cs)
  | fuel + 1, cs =>
    match cs with
    | '.' :: rest =>
      let (ds, rest2) := rest.span Char.isDigit
      if ds.isEmpty then ([], cs)
      else
        let (more, r) := parseReleaseTail fuel rest2
        (digitsToNat ds :: more, r)
    | _ => ([], cs)

/-- Turn one local segment into its value (packaging: `int` when all digits,
else the string). -/
def mkLocalSeg (seg : List Char) : LocalSeg :=
  if seg.all Char.isDigit then .num (digitsToNat seg) else .str ⟨seg⟩

/-- Consume `([-_.][a-z0-9]+)*` local segments and require the input to end
there; `none` when anything else remains. -/
def parseLocalTail : Nat → List Char → List LocalSeg → Option (List LocalSeg)
  | _, [], acc => some acc.reverse
  | 0, _ :: _, _ => none
  | fuel + 1, c :: rest, acc =>
    if isSepChar c then
      let (seg, rest2) := rest.span isLocalChar
      if seg.isEmpty then none else parseLocalTail fuel rest2 (mkLocalSeg seg :: acc)
    else none

/-- Parse the optional pre, post, dev and local groups after the release
part, requiring the input to be exhausted. -/
def parseAfterRelease (epoch : Nat) (rel : List Nat) (cs : List Char) : Option PyVersion :=
  let (pre, cs1) :=
    match tryLetterNum preKws cs with
    | some (kw, n, rest) => (some (normalizePreLetter kw, n), rest)
    | none => (none, cs)
  let (post, cs2) :=
    match tryPost cs1 with
    | some (n, rest) => (some n, rest)
    | none => (none, cs1)
  let (dev, cs3) :=
    match tryLetterNum ["dev"] cs2 with
    | some (_, n, rest) => (some n, rest)
    | none => (none, cs2)
  match cs3 with
  | [] => some ⟨epoch, rel, pre, post, dev, none⟩
  | '+' :: rest =>
    let (seg, rest2) := rest.span isLocalChar
    if seg.isEmpty then none
    else
      match parseLocalTail rest2.length rest2 [mkLocalSeg seg] with
      | some segs => some ⟨epoch, rel, pre, post, dev, some segs⟩
      | none => none
  | _ => none

/-- Parse a version string (as a lowercased, trimmed character list is built
here) against packaging's anchored `VERSION_PATTERN`; `none` when the string
is not a valid PEP 440 version. -/
def parseVersionChars (cs0 : List Char) : Option PyVersion :=
  let cs : List Char := (trimSpaces cs0).map Char.toLower
  let cs :=
    match cs with
    | 'v' :: rest => rest
    | _ => cs
  let (d1, r1) := cs.span Char.isDigit
  if d1.isEmpty then none
  else
    match r1 with
    | '!' :: rest =>
      let (d2, r2) := rest.span Char.isDigit
      if d2.isEmpty then none
      else
        let (more, r3) := parseReleaseTail r2.length r2
        parseAfterRelease (digitsToNat d1) (digitsToNat d2 :: more) r3
    | _ =>
      let (more, r3) := parseReleaseTail r1.length r1
      parseAfterRelease 0 (digitsToNat d1 :: more) r3

/-! ### The comparison key (packaging's `_cmpkey`)

packaging compares `Version` objects by a tuple
`(epoch, trimmed release, pre, post, dev, local)` where the infinity
sentinels are encoded below by a leading tag so that every slot lives in a
lexicographically ordered product.  Python tuple and string comparison is
lexicographic exactly like `Lex` products and lists. -/

/-- Key of one local segment: packaging maps an integer segment `i` to
`(i, "")` and a string segment `s` to `(NegativeInfinity, s)`, so string
segments order before integer ones; the leading tag encodes that. -/
abbrev SegKey := Lex (Nat × Lex (Nat × String))

/-- Comparison key type: epoch, trimmed release, pre slot, post slot, dev
slot, local slot, compared lexicographically. -/
abbrev VerKey :=
  Lex (Nat × Lex ((List Nat) ×
    Lex ((Lex (Nat × Lex (Nat × Nat))) ×
      Lex ((Lex (Nat × Nat)) × Lex ((Lex (Nat × Nat)) × Lex (Nat × List SegKey))))))

/-- Key of a local segment (see `SegKey`). -/
def segKey : LocalSeg → SegKey
  | .num n => toLex (1, toLex (n, ""))
  | .str s => toLex (0, toLex (0, s))

/-- Rank of a normalized pre-release letter; equals string order on
the normalized letters "a" < "b" < "rc". -/
def preLetterRank (l : String) : Nat :=
  if l = "a" then 0 else if l = "b" then 1 else 2

/-- The pre slot of `_cmpkey`: `NegativeInfinity` when only a dev release is
present, `Infinity` when there is no pre-release, else the letter and
number. -/
def preSlot (pre : Option (String × Nat)) (post dev : Option Nat) : Lex (Nat × Lex (Nat × Nat)) :=
  match pre, post, dev with
  | none, none, some _ => toLex (0, toLex (0, 0))
  | none, _, _ => toLex (2, toLex (0, 0))
  | some (l, n), _, _ => toLex (1, toLex (preLetterRank l, n))

/-- The post slot: `NegativeInfinity` when absent, else the number. -/
def postSlot : Option Nat → Lex (Nat × Nat)
  | none => toLex (0, 0)
  | some n => toLex (1, n)

/-- The dev slot: `Infinity` when absent, else the number. -/
def devSlot : Option Nat → Lex (Nat × Nat)
  | none => toLex (1, 0)
  | some n => toLex (0, n)

/-- The local slot: `NegativeInfinity` when absent, else the segment keys. -/
def localSlot : Option (List LocalSeg) → Lex (Nat × List SegKey)
  | none => toLex (0, [])
  | some segs => toLex (1, segs.map segKey)

/-- The release tuple with trailing zeros removed, as `_cmpkey` trims it. -/
def trimRelease (rel : List Nat) : List Nat :=
  (rel.reverse.dropWhile (· == 0)).reverse

/-- packaging's `_cmpkey`: the value `Version.__lt__` and `__eq__` compare. -/
def cmpkey (v : PyVersion) : VerKey :=
  toLex (v.epoch, toLex (trimRelease v.release,
    toLex (preSlot v.pre v.post v.dev,
      toLex (postSlot v.post, toLex (devSlot v.dev, localSlot v.localSegs)))))

/-- Three-way comparison of parsed versions, as `compare_versions` computes
it from `Version.__lt__` / `__gt__`: -1, 1 or 0 by `_cmpkey` order. -/
def vcmp (a b : PyVersion) : Int :=
  if cmpkey a < cmpkey b then -1 else if cmpkey b < cmpkey a then 1 else 0

/-! ### Python exceptions and adk_core/version.py -/

/-- The exceptions the embedded functions can raise.
`invalidVersion` is `packaging.version.InvalidVersion`;
`versionNotFound` is `adk_core.exceptions.VersionNotFoundError` (version
type, version, available versions); `driverIncompatible` is
`DriverIncompatibleError` (driver, CANN version, minimum required);
`typeErr` is Python's built-in `TypeError`. -/
inductive PyExc where
  | invalidVersion : String → PyExc
  | versionNotFound : String → String → List String → PyExc
  | driverIncompatible : String → String → String → PyExc
  | typeErr : String → PyExc
deriving DecidableEq

/-- The message `DriverIncompatibleError.__init__` builds from the driver
version, the CANN version and the minimum required driver version. -/
def driverIncompatibleMessage (driver cann minReq : String) : String :=
  "Driver version '" ++ driver ++ "' is incompatible with CANN " ++ cann ++
    ". Minimum required driver version is '" ++ minReq ++ "'."

/-- `parse_version`: parse or raise `InvalidVersion`. -/
def parse_version (s : String) : Except PyExc PyVersion :=
  match parseVersionChars s.data with
  | some v => .ok v
  | none => .error (.invalidVersion s)

/-- `is_version_valid`: `parse_version` wrapped in try/except. -/
def is_version_valid (s : String) : Bool :=
  (parseVersionChars s.data).isSome

/-- `compare_versions`: parse both arguments, then -1/0/1 by version
order. -/
def compare_versions (v1 v2 : String) : Except PyExc Int := do
  let a ← parse_version v1
  let b ← parse_version v2
  pure (vcmp a b)

/-- `is_compatible current minimum` = `compare_versions current minimum ≥ 0`. -/
def is_compatible (current minimum_required : String) : Except PyExc Bool := do
  let c ← compare_versions current minimum_required
  pure (decide (0 ≤ c))

/-- The parsed value of a valid version string (junk value on an invalid
one; every use is guarded by `is_version_valid`). -/
def parseVal (s : String) : PyVersion :=
  (parseVersionChars s.data).getD ⟨0, [], none, none, none, none⟩

/-- Comparison key of a version string, via its parsed value. -/
def keyStr (s : String) : VerKey :=
  cmpkey (parseVal s)

/-- Ascending sort relation on version strings (Python's `sort` with the
parsed version as key). -/
def vle (a b : String) : Prop := keyStr a ≤ keyStr b

/-- Descending sort relation on version strings (`sort(reverse=True)`). -/
def vge (a b : String) : Prop := keyStr b ≤ keyStr a

instance : DecidableRel vle := fun a b => inferInstanceAs (Decidable (keyStr a ≤ keyStr b))

instance : DecidableRel vge := fun a b => inferInstanceAs (Decidable (keyStr b ≤ keyStr a))

instance : IsTotal String vle := ⟨fun a b => le_total (keyStr a) (keyStr b)⟩

instance : IsTotal String vge := ⟨fun a b => le_total (keyStr b) (keyStr a)⟩

instance : IsTrans String vle := ⟨fun _ _ _ hab hbc => le_trans hab hbc⟩

instance : IsTrans String vge := ⟨fun _ _ _ hab hbc => le_trans hbc hab⟩

/-- The parsing pass of `sort_versions`: the source builds
`[(v, parse_version(v)) for v in versions if is_version_valid(v)]`, so each
surviving entry is parsed inside the function (a failure there would
propagate). -/
def build_pairs : List String → Except PyExc (List (String × PyVersion))
  | [] => .ok []
  | v :: vs => do
    let p ← parse_version v
    let rest ← build_pairs vs
    pure ((v, p) :: rest)

/-- Pure value of `sort_versions`: the invalid entries are dropped and the
remainder is sorted stably by parsed-version key, descending when `rev`.
Python's `list.sort` is stable; a stable insertion sort computes the same
list. -/
def sort_versions_list (versions : List String) (rev : Bool) : List String :=
  let valid := versions.filter is_version_valid
  if rev then valid.insertionSort vge else valid.insertionSort vle

/-- `sort_versions`: filter the valid entries, parse each (the sort key), and
sort stably by the parsed version. -/
def sort_versions (versions : List String) (rev : Bool) : Except PyExc (List String) := do
  let valid := versions.filter is_version_valid
  let _pairs ← build_pairs valid
  pure (if rev then valid.insertionSort vge else valid.insertionSort vle)

/-- Truthiness of an optional string argument: Python's `if min_version:` is
false for `None` and for the empty string. -/
def optTruthy : Option String → Bool
  | none => false
  | some s => !s.isEmpty

/-- The guard `if min_version and not is_compatible(v, min_version)`: true
when a truthy minimum bound is not met (a `None` or empty-string bound never
fails, by Python truthiness). -/
def minFailCheck (v : String) (mn : Option String) : Except PyExc Bool :=
  match mn with
  | some m =>
    if m.isEmpty then pure false
    else do
      let c ← is_compatible v m
      pure (!c)
  | none => pure false

/-- The guard `if max_version and compare_versions(v, max_version) > 0`:
true when the version exceeds a truthy maximum bound.  The same
guard-then-compare pattern recurs in matrix.py against
`entry.max_driver_version`. -/
def maxExceeded (v : String) (mx : Option String) : Except PyExc Bool :=
  match mx with
  | some s =>
    if s.isEmpty then pure false
    else do
      let c ← compare_versions v s
      pure (decide (0 < c))
  | none => pure false

/-- The body of `find_latest_compatible`'s loop: skip invalid entries, then
entries below `min_version` (when truthy), then entries above `max_version`
(when truthy); keep the rest in order. -/
def collect_latest (mx mn : Option String) : List String → Except PyExc (List String)
  | [] => .ok []
  | v :: vs => do
    if !is_version_valid v then collect_latest mx mn vs
    else do
      let minFail ← minFailCheck v mn
      if minFail then collect_latest mx mn vs
      else do
        let maxFail ← maxExceeded v mx
        if maxFail then collect_latest mx mn vs
        else do
          let rest ← collect_latest mx mn vs
          pure (v :: rest)

/-- Python's `max(list, key=...)`: the first element with the maximal key
(later elements replace the current maximum only when strictly greater). -/
def maxByKey : String → List String → String
  | best, [] => best
  | best, v :: vs => if keyStr best < keyStr v then maxByKey v vs else maxByKey best vs

/-- `find_latest_compatible available max_version min_version`: the latest
valid entry satisfying the optional bounds, or `none`. -/
def find_latest_compatible (available : List String) (mx mn : Option String) :
    Except PyExc (Option String) := do
  let valid ← collect_latest mx mn available
  match valid with
  | [] => pure none
  | v :: vs => pure (some (maxByKey v vs))

/-! ### The data model (adk_core/models.py)

Pydantic models become structures; dictionaries (which preserve insertion
order in Python) become association lists; `Optional` fields become
`Option`.  The construction-time validators of each model are collected
into a boolean well-formedness predicate per model: a value is
constructible through pydantic exactly when the predicate holds. -/

/-- `FrameworkConfig`: one framework's configuration. -/
structure FrameworkConfig where
  version : String
  torch_npu_version : Option String
  python_versions : List String
  whl_url : Option String
  install_command : Option String
deriving DecidableEq

/-- `CANNVersionEntry`: one toolkit-version row. -/
structure CANNVersionEntry where
  min_driver_version : String
  max_driver_version : Option String
  supported_os : List String
  supported_npu : List String
  supported_arch : List String
  frameworks : List (String × FrameworkConfig)
  cann_toolkit_url : Option String
  kernels_url : Option String
  release_notes : Option String
  deprecated : Bool
deriving DecidableEq

/-- `CompatibilityMatrix`: the root aggregate. -/
structure CompatibilityMatrix where
  version : String
  last_updated : String
  cann_versions : List (String × CANNVersionEntry)
deriving DecidableEq

/-- `EnvironmentInfo`: the detected host environment. -/
structure EnvironmentInfo where
  driver_version : String
  os_name : String
  npu_type : String
  arch : String
  firmware_version : Option String
  npu_count : Nat
deriving DecidableEq

/-- `QueryResult` with its query-specific `data` payload type. -/
structure QueryResult (α : Type) where
  success : Bool
  data : Option α
  error : Option String
  suggestions : List String
deriving DecidableEq

/-- The `data` dictionary `get_cann_requirements` returns on success. -/
structure CannRequirements where
  cann_version : String
  min_driver_version : String
  max_driver_version : Option String
  supported_os : List String
  supported_npu : List String
  supported_arch : List String
  frameworks : List String
  deprecated : Bool
deriving DecidableEq

/-- The `data` dictionary `find_framework_config` returns on success. -/
structure FrameworkConfigData where
  framework : String
  version : String
  torch_npu_version : Option String
  python_versions : List String
  whl_url : Option String
  install_command : Option String
deriving DecidableEq

/-- `ValidationResult`: the outcome of `validate_environment`. -/
structure ValidationResult where
  valid : Bool
  compatible_cann_versions : List String
  errors : List String
  warnings : List String
deriving DecidableEq

/-- The `python_versions` item validator: `pv.replace(".", "").isdigit()`
(non-empty and all digits once the dots are removed). -/
def pythonVersionOk (pv : String) : Bool :=
  let t := pv.data.filter (fun c => c != '.')
  !t.isEmpty && t.all Char.isDigit

/-- The pydantic validators of `FrameworkConfig`: `version` must parse, and
`python_versions` is non-empty (min_length=1) with each item numeric-dotted. -/
def frameworkConfigOk (fc : FrameworkConfig) : Bool :=
  is_version_valid fc.version && !fc.python_versions.isEmpty &&
    fc.python_versions.all pythonVersionOk

/-- The pydantic validators of `CANNVersionEntry`: `min_driver_version`
must parse, the three supported-lists are non-empty, and each framework
config is itself valid.  Note what is NOT validated: the
`max_driver_version` string and (at the matrix level) the version-string
keys of `cann_versions`. -/
def entryOk (e : CANNVersionEntry) : Bool :=
  is_version_valid e.min_driver_version && !e.supported_os.isEmpty &&
    !e.supported_npu.isEmpty && !e.supported_arch.isEmpty &&
    e.frameworks.all (fun p => frameworkConfigOk p.2)

/-- The pydantic validators of `CompatibilityMatrix`: the schema `version`
must parse, `cann_versions` is non-empty (min_length=1) and every entry
passes its own validators.  The keys of `cann_versions` are not validated
as version strings. -/
def matrixOk (m : CompatibilityMatrix) : Bool :=
  is_version_valid m.version && !m.cann_versions.isEmpty &&
    m.cann_versions.all (fun p => entryOk p.2)

/-! ### The resolver (adk_core/matrix.py) -/

/-- `CompatibilityMatrix.get_cann_version`: keyed dictionary lookup. -/
def get_cann_version (m : CompatibilityMatrix) (version : String) : Option CANNVersionEntry :=
  m.cann_versions.lookup version

/-- `list_cann_versions`: the keys whose entry survives the deprecation
filter, sorted descending. -/
def list_cann_versions (m : CompatibilityMatrix) (include_deprecated : Bool) :
    Except PyExc (List String) :=
  sort_versions
    ((m.cann_versions.filter (fun p => include_deprecated || !p.2.deprecated)).map Prod.fst)
    true

/-- `get_cann_requirements`: requirement set for one version, or a failure
value with a "not found" error and an available-versions suggestion. -/
def get_cann_requirements (m : CompatibilityMatrix) (cann_version : String) :
    Except PyExc (QueryResult CannRequirements) := do
  match get_cann_version m cann_version with
  | none => do
    let avail ← list_cann_versions m false
    pure ⟨false, none, some ("CANN version '" ++ cann_version ++ "' not found"),
      ["Available versions: " ++ String.intercalate ", " avail]⟩
  | some e =>
    pure ⟨true,
      some ⟨cann_version, e.min_driver_version, e.max_driver_version, e.supported_os,
        e.supported_npu, e.supported_arch, e.frameworks.map Prod.fst, e.deprecated⟩,
      none, []⟩

/-- The per-entry loop body of `find_compatible_cann`, with the source's
`continue`-style short-circuit order: deprecation first, then the minimum
check, the maximum check, and the optional OS/NPU membership filters. -/
def find_compat_scan (d : String) (os npu : Option String) :
    List (String × CANNVersionEntry) → Except PyExc (List String)
  | [] => .ok []
  | (v, e) :: rest => do
    if e.deprecated then find_compat_scan d os npu rest
    else do
      let ok1 ← is_compatible d e.min_driver_version
      if !ok1 then find_compat_scan d os npu rest
      else do
        let exceeded ← maxExceeded d e.max_driver_version
        if exceeded then find_compat_scan d os npu rest
        else if optTruthy os && !(e.supported_os.contains (os.getD "")) then
          find_compat_scan d os npu rest
        else if optTruthy npu && !(e.supported_npu.contains (npu.getD "")) then
          find_compat_scan d os npu rest
        else do
          let rest2 ← find_compat_scan d os npu rest
          pure (v :: rest2)

/-- `find_compatible_cann`: compatible non-deprecated versions, sorted
descending. -/
def find_compatible_cann (m : CompatibilityMatrix) (driver_version : String)
    (os_name npu_type : Option String) : Except PyExc (List String) := do
  let compatible ← find_compat_scan driver_version os_name npu_type m.cann_versions
  sort_versions compatible true

/-- `get_framework_config`: plain optional lookup. -/
def get_framework_config (m : CompatibilityMatrix) (cann_version framework : String) :
    Option FrameworkConfig :=
  (get_cann_version m cann_version).bind (fun e => e.frameworks.lookup framework)

/-- `find_framework_config`: `QueryResult` variant of the lookup. -/
def find_framework_config (m : CompatibilityMatrix) (cann_version framework : String) :
    Except PyExc (QueryResult FrameworkConfigData) := do
  match get_cann_version m cann_version with
  | none => do
    let avail ← list_cann_versions m false
    pure ⟨false, none, some ("CANN version '" ++ cann_version ++ "' not found"),
      ["Available versions: " ++ String.intercalate ", " avail]⟩
  | some e =>
    match e.frameworks.lookup framework with
    | none =>
      pure ⟨false, none,
        some ("Framework '" ++ framework ++ "' not available for CANN " ++ cann_version),
        ["Available frameworks: " ++ String.intercalate ", " (e.frameworks.map Prod.fst)]⟩
    | some config =>
      pure ⟨true,
        some ⟨framework, config.version, config.torch_npu_version, config.python_versions,
          config.whl_url, config.install_command⟩,
        none, []⟩

/-- The `version_errors` list one entry accumulates inside
`validate_environment`: all five checks run in order with no
short-circuit (so a parse failure in the maximum check is reached even
when the minimum check already failed). -/
def entry_version_errors (env : EnvironmentInfo) (e : CANNVersionEntry) :
    Except PyExc (List String) := do
  let ok1 ← is_compatible env.driver_version e.min_driver_version
  let errsMin :=
    if !ok1 then
      ["Driver " ++ env.driver_version ++ " < required " ++ e.min_driver_version]
    else []
  let exceeded ← maxExceeded env.driver_version e.max_driver_version
  let errsMax :=
    if exceeded then
      ["Driver " ++ env.driver_version ++ " > max supported " ++ (e.max_driver_version.getD "")]
    else []
  let errsOs :=
    if !(e.supported_os.contains env.os_name) then
      ["OS " ++ env.os_name ++ " not supported"]
    else []
  let errsNpu :=
    if !(e.supported_npu.contains env.npu_type) then
      ["NPU " ++ env.npu_type ++ " not supported"]
    else []
  let errsArch :=
    if !(e.supported_arch.contains env.arch) then
      ["Architecture " ++ env.arch ++ " not supported"]
    else []
  pure (errsMin ++ errsMax ++ errsOs ++ errsNpu ++ errsArch)

/-- The entry loop of `validate_environment`: versions whose
`version_errors` list is empty are compatible, in matrix order, and a
passing deprecated entry contributes a warning. -/
def validate_scan (env : EnvironmentInfo) :
    List (String × CANNVersionEntry) → Except PyExc (List String × List String)
  | [] => .ok ([], [])
  | (v, e) :: rest => do
    let verrs ← entry_version_errors env e
    let (cs, ws) ← validate_scan env rest
    if verrs.isEmpty then
      pure (v :: cs, if e.deprecated then ("CANN " ++ v ++ " is deprecated") :: ws else ws)
    else
      pure (cs, ws)

/-- `validate_environment`: scan every entry, then build the result; the
two synthetic error messages appear exactly when no entry passed, and the
compatible versions are sorted descending. -/
def validate_environment (m : CompatibilityMatrix) (env : EnvironmentInfo) :
    Except PyExc ValidationResult := do
  let (cs, ws) ← validate_scan env m.cann_versions
  let errors :=
    if cs.isEmpty then
      ["No compatible CANN versions found for this environment",
       "Driver: " ++ env.driver_version ++ ", OS: " ++ env.os_name ++
         ", NPU: " ++ env.npu_type]
    else []
  let sorted ← sort_versions cs true
  pure ⟨errors.isEmpty, sorted, errors, ws⟩

/-- `get_cann_entry`: the raising twin of `get_cann_version`. -/
def get_cann_entry (m : CompatibilityMatrix) (cann_version : String) :
    Except PyExc CANNVersionEntry := do
  match get_cann_version m cann_version with
  | none => do
    let avail ← list_cann_versions m true
    throw (.versionNotFound "CANN" cann_version avail)
  | some e => pure e

/-- `check_driver_compatibility`: raises `VersionNotFoundError` for an
unknown CANN version and `DriverIncompatibleError` when the driver is below
the minimum.  In the above-maximum branch the source constructs
`DriverIncompatibleError(driver, cann, max_allowed=...)`, but
`DriverIncompatibleError.__init__` has no `max_allowed` parameter and its
required `min_required` argument is missing, so that constructor call
itself raises `TypeError` before anything can be raised deliberately. -/
def check_driver_compatibility (m : CompatibilityMatrix) (driver_version cann_version : String) :
    Except PyExc Unit := do
  let e ← get_cann_entry m cann_version
  let ok1 ← is_compatible driver_version e.min_driver_version
  if !ok1 then
    throw (.driverIncompatible driver_version cann_version e.min_driver_version)
  else do
    let exceeded ← maxExceeded driver_version e.max_driver_version
    if exceeded then
      throw (.typeErr "DriverIncompatibleError() got an unexpected keyword argument max_allowed")
    else pure ()

/-! ### Characterization predicates

Pure (exception-free) descriptions of what the scans above compute; the
theorems below prove the monadic embeddings equal to them under the
parseability conditions the source relies on. -/

/-- Pure value of the `if min_version and not is_compatible(v, min)` guard
of `find_latest_compatible`. -/
def minFailsB (v : String) (mn : Option String) : Bool :=
  match mn with
  | some m => if m.isEmpty then false else !(decide (keyStr m ≤ keyStr v))
  | none => false

/-- Pure value of the `if max and compare_versions(v, max) > 0` guard. -/
def maxExceededB (v : String) (mx : Option String) : Bool :=
  match mx with
  | some m => if m.isEmpty then false else decide (keyStr m < keyStr v)
  | none => false

/-- Which entries of the list `find_latest_compatible` keeps. -/
def latest_keep (mx mn : Option String) (v : String) : Bool :=
  is_version_valid v && !minFailsB v mn && !maxExceededB v mx

/-- Pure pass/fail of one entry in `validate_environment`'s scan: the
driver within bounds and the three memberships. -/
def entryPassB (env : EnvironmentInfo) (e : CANNVersionEntry) : Bool :=
  decide (keyStr e.min_driver_version ≤ keyStr env.driver_version) &&
    !maxExceededB env.driver_version e.max_driver_version &&
    e.supported_os.contains env.os_name &&
    e.supported_npu.contains env.npu_type &&
    e.supported_arch.contains env.arch

/-- Pure value of the `version_errors` list one entry accumulates in
`validate_environment` (empty exactly when the entry passes). -/
def entry_errs_list (env : EnvironmentInfo) (e : CANNVersionEntry) : List String :=
  (if !(decide (keyStr e.min_driver_version ≤ keyStr env.driver_version)) then
    ["Driver " ++ env.driver_version ++ " < required " ++ e.min_driver_version]
  else []) ++
  (if maxExceededB env.driver_version e.max_driver_version then
    ["Driver " ++ env.driver_version ++ " > max supported " ++ (e.max_driver_version.getD "")]
  else []) ++
  (if !(e.supported_os.contains env.os_name) then
    ["OS " ++ env.os_name ++ " not supported"]
  else []) ++
  (if !(e.supported_npu.contains env.npu_type) then
    ["NPU " ++ env.npu_type ++ " not supported"]
  else []) ++
  (if !(e.supported_arch.contains env.arch) then
    ["Architecture " ++ env.arch ++ " not supported"]
  else [])

/-- The same pass condition stated as a proposition (the four predicates of
the specification; the maximum bound applies only when present and truthy). -/
def entryPasses (env : EnvironmentInfo) (e : CANNVersionEntry) : Prop :=
  keyStr e.min_driver_version ≤ keyStr env.driver_version
  ∧ (∀ s, e.max_driver_version = some s → s ≠ "" → keyStr env.driver_version ≤ keyStr s)
  ∧ env.os_name ∈ e.supported_os
  ∧ env.npu_type ∈ e.supported_npu
  ∧ env.arch ∈ e.supported_arch

/-- Pure pass/fail of one entry in `find_compatible_cann`'s scan. -/
def findPassB (d : String) (os npu : Option String) (e : CANNVersionEntry) : Bool :=
  !e.deprecated &&
    decide (keyStr e.min_driver_version ≤ keyStr d) &&
    !maxExceededB d e.max_driver_version &&
    !(optTruthy os && !(e.supported_os.contains (os.getD ""))) &&
    !(optTruthy npu && !(e.supported_npu.contains (npu.getD "")))

/-- The compatible versions `validate_environment` collects, in matrix
order (before the final sort). -/
def compat_list (m : CompatibilityMatrix) (env : EnvironmentInfo) : List String :=
  (m.cann_versions.filter (fun p => entryPassB env p.2)).map Prod.fst

/-- The warnings `validate_environment` collects, in matrix order. -/
def warning_list (m : CompatibilityMatrix) (env : EnvironmentInfo) : List String :=
  (m.cann_versions.filter (fun p => entryPassB env p.2 && p.2.deprecated)).map
    (fun p => "CANN " ++ p.1 ++ " is deprecated")

/-- The synthetic error list of `validate_environment`: two messages when
no entry passed, empty otherwise. -/
def synthetic_errors (m : CompatibilityMatrix) (env : EnvironmentInfo) : List String :=
  if (compat_list m env).isEmpty then
    ["No compatible CANN versions found for this environment",
     "Driver: " ++ env.driver_version ++ ", OS: " ++ env.os_name ++
       ", NPU: " ++ env.npu_type]
  else []

/-- Every truthy `max_driver_version` bound of the matrix parses.  pydantic
does not validate this field, so it is a side condition of the theorems
that reach the maximum-bound comparison. -/
def maxBoundsOk (m : CompatibilityMatrix) : Prop :=
  ∀ p ∈ m.cann_versions, ∀ s, p.2.max_driver_version = some s → s ≠ "" →
    is_version_valid s = true

/-- Decidable form of `maxBoundsOk`, for concrete matrices. -/
def maxBoundsOkB (m : CompatibilityMatrix) : Bool :=
  m.cann_versions.all (fun p =>
    match p.2.max_driver_version with
    | some s => s.isEmpty || is_version_valid s
    | none => true)

/-! ### Concrete scenario data (from the specification's scenarios) -/

/-- The pytorch framework configuration of the scenario entry. -/
def pytorchConfig : FrameworkConfig :=
  ⟨"2.4.0", some "2.4.0.post2", ["3.8", "3.9", "3.10"], none, none⟩

/-- Scenario A/B entry "8.0.0": minimum driver 24.1.rc1, no maximum. -/
def scenarioEntry : CANNVersionEntry :=
  ⟨"24.1.rc1", none, ["ubuntu22.04"], ["910B"], ["x86_64"],
    [("pytorch", pytorchConfig)], none, none, none, false⟩

/-- An entry with a maximum driver bound, for the above-maximum branch. -/
def scenarioMaxEntry : CANNVersionEntry :=
  ⟨"24.1.rc1", some "25.0.0", ["ubuntu22.04"], ["910B"], ["x86_64"],
    [], none, none, none, false⟩

/-- Matrix with the scenario entry and a maximum-bounded entry. -/
def scenarioMatrix : CompatibilityMatrix :=
  ⟨"1.0.0", "2025-01-01", [("8.0.0", scenarioEntry), ("9.0.0", scenarioMaxEntry)]⟩

/-- Scenario A environment. -/
def scenarioEnv : EnvironmentInfo :=
  ⟨"24.1.0", "ubuntu22.04", "910B", "x86_64", none, 1⟩

/-- Scenario D entry "7.0.0" (not deprecated). -/
def entry700 : CANNVersionEntry :=
  ⟨"23.0.0", none, ["ubuntu22.04"], ["910B"], ["x86_64"], [], none, none, none, false⟩

/-- Scenario D entry "6.3.0" (deprecated). -/
def entry630 : CANNVersionEntry :=
  ⟨"23.0.0", none, ["ubuntu22.04"], ["910B"], ["x86_64"], [], none, none, none, true⟩

/-- Scenario D matrix: both entries match `scenarioEnv`. -/
def matrixScenarioD : CompatibilityMatrix :=
  ⟨"1.0.0", "2025-01-01", [("7.0.0", entry700), ("6.3.0", entry630)]⟩

/-- An entry that does not match `scenarioEnv` (different OS), sitting
under a parseable key. -/
def oddKeyEntryMiss : CANNVersionEntry :=
  ⟨"24.0.0", none, ["ubuntu20.04"], ["910B"], ["x86_64"], [], none, none, none, false⟩

/-- An entry that matches `scenarioEnv`, sitting under the unparseable key. -/
def oddKeyEntryHit : CANNVersionEntry :=
  ⟨"24.0.0", none, ["ubuntu22.04"], ["910B"], ["x86_64"], [], none, none, none, false⟩

/-- A matrix whose only entry matching `scenarioEnv` sits under the
unparseable key "weird!!". -/
def oddKeyMatrix : CompatibilityMatrix :=
  ⟨"1.0.0", "2025-01-01", [("8.0.0", oddKeyEntryMiss), ("weird!!", oddKeyEntryHit)]⟩

/-! ### Decidable equality for the exception monad -/

instance {ε α : Type} [DecidableEq ε] [DecidableEq α] : DecidableEq (Except ε α) := fun x y =>
  match x, y with
  | .ok a, .ok b =>
    if h : a = b then isTrue (by rw [h]) else isFalse (fun hh => h (Except.ok.inj hh))
  | .error a, .error b =>
    if h : a = b then isTrue (by rw [h]) else isFalse (fun hh => h (Except.error.inj hh))
  | .ok _, .error _ => isFalse (fun hh => Except.noConfusion hh)
  | .error _, .ok _ => isFalse (fun hh => Except.noConfusion hh)

/-! ### Lemmas: the comparison function is a total order on keys -/

theorem except_bind_ok {ε α β : Type} (a : α) (f : α → Except ε β) :
    (Except.ok a >>= f : Except ε β) = f a := rfl

theorem vcmp_self (v : PyVersion) : vcmp v v = 0 := by
  simp [vcmp]

theorem vcmp_antisymm (a b : PyVersion) : vcmp a b = -vcmp b a := by
  unfold vcmp
  rcases lt_trichotomy (cmpkey a) (cmpkey b) with h | h | h
  · simp [h, asymm h]
  · simp [h]
  · simp [h, asymm h]

theorem vcmp_nonneg_iff (a b : PyVersion) : 0 ≤ vcmp a b ↔ cmpkey b ≤ cmpkey a := by
  unfold vcmp
  split_ifs with h1 h2
  · exact iff_of_false (by omega) (not_le.mpr h1)
  · exact iff_of_true (by omega) (le_of_lt h2)
  · exact iff_of_true (le_refl 0) (not_lt.mp h1)

theorem vcmp_pos_iff (a b : PyVersion) : 0 < vcmp a b ↔ cmpkey b < cmpkey a := by
  unfold vcmp
  split_ifs with h1 h2
  · exact iff_of_false (by omega) (asymm h1)
  · exact iff_of_true (by omega) h2
  · exact iff_of_false (by omega) h2

/-! ### Lemmas: parsing of valid version strings -/

theorem parse_version_eq_ok {s : String} (h : is_version_valid s = true) :
    parse_version s = .ok (parseVal s) := by
  unfold is_version_valid at h
  unfold parse_version parseVal
  cases hp : parseVersionChars s.data with
  | none => rw [hp] at h; simp at h
  | some v => simp

theorem compare_versions_eq_ok {a b : String} (ha : is_version_valid a = true)
    (hb : is_version_valid b = true) :
    compare_versions a b = .ok (vcmp (parseVal a) (parseVal b)) := by
  unfold compare_versions
  rw [parse_version_eq_ok ha, parse_version_eq_ok hb]
  rfl

theorem is_compatible_eq_ok {a b : String} (ha : is_version_valid a = true)
    (hb : is_version_valid b = true) :
    is_compatible a b = .ok (decide (0 ≤ vcmp (parseVal a) (parseVal b))) := by
  unfold is_compatible
  rw [compare_versions_eq_ok ha hb]
  rfl

theorem keyStr_def (s : String) : keyStr s = cmpkey (parseVal s) := rfl

/-! ### Lemmas: sorting -/

theorem build_pairs_ok : ∀ {l : List String}, (∀ v ∈ l, is_version_valid v = true) →
    build_pairs l = .ok (l.map (fun v => (v, parseVal v)))
  | [], _ => rfl
  | v :: vs, h => by
    unfold build_pairs
    rw [parse_version_eq_ok (h v (List.mem_cons_self v vs)),
      build_pairs_ok (fun w hw => h w (List.mem_cons_of_mem v hw))]
    rfl

theorem sort_versions_eq (L : List String) (rev : Bool) :
    sort_versions L rev = .ok (sort_versions_list L rev) := by
  simp only [sort_versions, sort_versions_list]
  rw [build_pairs_ok (fun v hv => (List.mem_filter.mp hv).2)]
  rfl

theorem sort_versions_list_perm (L : List String) (rev : Bool) :
    (sort_versions_list L rev).Perm (L.filter is_version_valid) := by
  unfold sort_versions_list
  cases rev
  · simpa using List.perm_insertionSort vle (L.filter is_version_valid)
  · simpa using List.perm_insertionSort vge (L.filter is_version_valid)

theorem mem_sort_versions_list {L : List String} {rev : Bool} {v : String} :
    v ∈ sort_versions_list L rev ↔ v ∈ L ∧ is_version_valid v = true := by
  rw [(sort_versions_list_perm L rev).mem_iff, List.mem_filter]

theorem sort_versions_list_sorted_desc (L : List String) :
    (sort_versions_list L true).Sorted vge := by
  unfold sort_versions_list
  simpa using List.sorted_insertionSort vge (L.filter is_version_valid)

theorem sort_versions_list_sorted_asc (L : List String) :
    (sort_versions_list L false).Sorted vle := by
  unfold sort_versions_list
  simpa using List.sorted_insertionSort vle (L.filter is_version_valid)

/-- Key distinctness survives permutation and, with sortedness, upgrades to
strict sortedness. -/
theorem strict_of_sorted_of_pairwise_ne {l : List String}
    (hs : l.Sorted vle) (hne : l.Pairwise (fun a b => keyStr a ≠ keyStr b)) :
    l.Pairwise (fun a b => keyStr a < keyStr b) :=
  (hs.and hne).imp (fun h => lt_of_le_of_ne h.1 h.2)

theorem strict_of_sorted_of_pairwise_ne_desc {l : List String}
    (hs : l.Sorted vge) (hne : l.Pairwise (fun a b => keyStr a ≠ keyStr b)) :
    l.Pairwise (fun a b => keyStr b < keyStr a) :=
  (hs.and hne).imp (fun h => lt_of_le_of_ne h.1 (fun hh => h.2 hh.symm))

/-- C7: for all valid version strings a, b, c, `compare_versions` is
reflexively zero, antisymmetric (compare(a,b) = -compare(b,a)), and
transitive on the non-negative side (compare(a,b) ≥ 0 and compare(b,c) ≥ 0
imply compare(a,c) ≥ 0); consequently `is_compatible x x` is true for every
valid x, since `is_compatible current minimum` is `compare ≥ 0`. -/
theorem compare_versions_total_order (a b c : String)
    (ha : is_version_valid a = true) (hb : is_version_valid b = true)
    (hc : is_version_valid c = true) :
    compare_versions a a = .ok 0
    ∧ compare_versions a b = (compare_versions b a).map (fun x => -x)
    ∧ (∀ x y, compare_versions a b = .ok x → compare_versions b c = .ok y →
        0 ≤ x → 0 ≤ y → ∃ z, compare_versions a c = .ok z ∧ 0 ≤ z)
    ∧ is_compatible a a = .ok true := by
  refine ⟨?_, ?_, ?_, ?_⟩
  · rw [compare_versions_eq_ok ha ha, vcmp_self]
  · rw [compare_versions_eq_ok ha hb, compare_versions_eq_ok hb ha]
    simp [Except.map, vcmp_antisymm (parseVal a) (parseVal b)]
  · intro x y hx hy hx0 hy0
    rw [compare_versions_eq_ok ha hb] at hx
    rw [compare_versions_eq_ok hb hc] at hy
    refine ⟨vcmp (parseVal a) (parseVal c), compare_versions_eq_ok ha hc, ?_⟩
    have h1 : cmpkey (parseVal b) ≤ cmpkey (parseVal a) := by
      rw [← vcmp_nonneg_iff]
      rw [Except.ok.injEq] at hx
      rw [hx]; exact hx0
    have h2 : cmpkey (parseVal c) ≤ cmpkey (parseVal b) := by
      rw [← vcmp_nonneg_iff]
      rw [Except.ok.injEq] at hy
      rw [hy]; exact hy0
    exact (vcmp_nonneg_iff _ _).mpr (le_trans h2 h1)
  · rw [is_compatible_eq_ok ha ha]
    simp [vcmp_self]

/-- Witness for C7 at the concrete strings "8.0.0", "2.0.0", "1.0.0". -/
theorem compare_versions_total_order_witness :
    compare_versions "8.0.0" "8.0.0" = .ok 0
    ∧ compare_versions "8.0.0" "2.0.0" = (compare_versions "2.0.0" "8.0.0").map (fun x => -x)
    ∧ (∀ x y, compare_versions "8.0.0" "2.0.0" = .ok x →
        compare_versions "2.0.0" "1.0.0" = .ok y →
        0 ≤ x → 0 ≤ y → ∃ z, compare_versions "8.0.0" "1.0.0" = .ok z ∧ 0 ≤ z)
    ∧ is_compatible "8.0.0" "8.0.0" = .ok true :=
  compare_versions_total_order "8.0.0" "2.0.0" "1.0.0" (by decide) (by decide) (by decide)

/-- C3 counterexample: the strings "1.0" and "1.0.0" are distinct but parse
to equal versions; the stable sort keeps their input order in BOTH
directions, so the reverse of the ascending sort differs from the
descending sort. -/
theorem sort_versions_reverse_cex :
    (sort_versions ["1.0", "1.0.0"] false).map List.reverse
      ≠ sort_versions ["1.0", "1.0.0"] true := by
  decide

/-- C3 amended: when the valid entries of the list parse to pairwise
distinct versions (no ties), the reverse of `sort(L, reverse=false)` equals
`sort(L, reverse=true)`; on ties the stable sort preserves the relative
input order in both directions, which breaks the reversal identity. -/
theorem sort_versions_reverse_eq (L : List String)
    (hne : (L.filter is_version_valid).Pairwise (fun a b => keyStr a ≠ keyStr b)) :
    (sort_versions L false).map List.reverse = sort_versions L true := by
  rw [sort_versions_eq, sort_versions_eq]
  show Except.ok (sort_versions_list L false).reverse = _
  have hpermA : (sort_versions_list L false).Perm (L.filter is_version_valid) :=
    sort_versions_list_perm L false
  have hpermD : (sort_versions_list L true).Perm (L.filter is_version_valid) :=
    sort_versions_list_perm L true
  have hsymm : ∀ {x y : String}, keyStr x ≠ keyStr y → keyStr y ≠ keyStr x :=
    fun h hh => h hh.symm
  have hneA : (sort_versions_list L false).Pairwise (fun a b => keyStr a ≠ keyStr b) :=
    (hpermA.pairwise_iff hsymm).mpr hne
  have hneD : (sort_versions_list L true).Pairwise (fun a b => keyStr a ≠ keyStr b) :=
    (hpermD.pairwise_iff hsymm).mpr hne
  have hstrictA := strict_of_sorted_of_pairwise_ne (sort_versions_list_sorted_asc L) hneA
  have hstrictD := strict_of_sorted_of_pairwise_ne_desc (sort_versions_list_sorted_desc L) hneD
  have hrevA : (sort_versions_list L false).reverse.Pairwise (fun a b => keyStr b < keyStr a) :=
    List.pairwise_reverse.mpr hstrictA
  haveI : IsAntisymm String (fun a b => keyStr b < keyStr a) :=
    ⟨fun _ _ h1 h2 => absurd (lt_trans h1 h2) (lt_irrefl _)⟩
  have hperm : (sort_versions_list L false).reverse.Perm (sort_versions_list L true) :=
    (((sort_versions_list L false).reverse_perm).trans hpermA).trans hpermD.symm
  rw [List.eq_of_perm_of_sorted hperm hrevA hstrictD]

/-- Witness for the amended C3 at a concrete tie-free list. -/
theorem sort_versions_reverse_eq_witness :
    (sort_versions ["1.0.0", "3.0.0", "2.0.0", "bogus"] false).map List.reverse
      = sort_versions ["1.0.0", "3.0.0", "2.0.0", "bogus"] true :=
  sort_versions_reverse_eq ["1.0.0", "3.0.0", "2.0.0", "bogus"] (by decide)

/-! ### Lemmas: the bound guards and find_latest_compatible -/

theorem minFailCheck_eq {v : String} {mn : Option String}
    (hv : is_version_valid v = true)
    (hmn : ∀ s, mn = some s → s ≠ "" → is_version_valid s = true) :
    minFailCheck v mn = .ok (minFailsB v mn) := by
  cases mn with
  | none => rfl
  | some m =>
    by_cases hm : m.isEmpty = true
    · simp only [minFailCheck, minFailsB]
      rw [if_pos hm, if_pos hm]
      rfl
    · have hmv : is_version_valid m = true := hmn m rfl (fun h => hm (h ▸ rfl))
      simp only [minFailCheck, minFailsB]
      rw [if_neg hm, if_neg hm, is_compatible_eq_ok hv hmv]
      show Except.ok (!decide (0 ≤ vcmp (parseVal v) (parseVal m))) = _
      rw [decide_eq_decide.mpr (vcmp_nonneg_iff (parseVal v) (parseVal m))]
      rfl

theorem maxExceeded_eq {v : String} {mx : Option String}
    (hv : is_version_valid v = true)
    (hmx : ∀ s, mx = some s → s ≠ "" → is_version_valid s = true) :
    maxExceeded v mx = .ok (maxExceededB v mx) := by
  cases mx with
  | none => rfl
  | some m =>
    by_cases hm : m.isEmpty = true
    · simp only [maxExceeded, maxExceededB]
      rw [if_pos hm, if_pos hm]
      rfl
    · have hmv : is_version_valid m = true := hmx m rfl (fun h => hm (h ▸ rfl))
      simp only [maxExceeded, maxExceededB]
      rw [if_neg hm, if_neg hm, compare_versions_eq_ok hv hmv]
      show Except.ok (decide (0 < vcmp (parseVal v) (parseVal m))) = _
      rw [decide_eq_decide.mpr (vcmp_pos_iff (parseVal v) (parseVal m))]
      rfl

theorem collect_latest_eq {mx mn : Option String}
    (hmx : ∀ s, mx = some s → s ≠ "" → is_version_valid s = true)
    (hmn : ∀ s, mn = some s → s ≠ "" → is_version_valid s = true) :
    ∀ L : List String, collect_latest mx mn L = .ok (L.filter (latest_keep mx mn))
  | [] => rfl
  | v :: vs => by
    have ih := collect_latest_eq hmx hmn vs
    by_cases hv : is_version_valid v = true
    · by_cases h1 : minFailsB v mn = true
      · simp only [collect_latest, hv, minFailCheck_eq hv hmn, h1, ih, latest_keep,
          Bool.not_true, Bool.and_false, Bool.false_and, List.filter_cons_of_neg,
          Bool.true_and, Bool.false_eq_true, not_false_eq_true]
        rfl
      · have h1' : minFailsB v mn = false := by simpa using h1
        by_cases h2 : maxExceededB v mx = true
        · simp only [collect_latest, hv, minFailCheck_eq hv hmn,
            maxExceeded_eq hv hmx, h1', h2, ih, latest_keep, Bool.not_true,
            Bool.and_false, Bool.true_and, Bool.not_false, List.filter_cons_of_neg,
            Bool.false_eq_true, not_false_eq_true]
          rfl
        · have h2' : maxExceededB v mx = false := by simpa using h2
          simp only [collect_latest, hv, minFailCheck_eq hv hmn,
            maxExceeded_eq hv hmx, h1', h2', ih, latest_keep, Bool.not_false,
            Bool.true_and, Bool.and_true, List.filter_cons_of_pos]
          rfl
    · have hv' : is_version_valid v = false := by simpa using hv
      simp only [collect_latest, hv', latest_keep, Bool.false_and,
        List.filter_cons_of_neg, Bool.false_eq_true, not_false_eq_true, ih,
        Bool.not_false]
      rfl

theorem maxByKey_mem (b : String) (l : List String) : maxByKey b l ∈ b :: l := by
  induction l generalizing b with
  | nil => exact List.mem_cons_self b []
  | cons v vs ih =>
    unfold maxByKey
    split
    · have := ih v
      simp only [List.mem_cons] at this ⊢
      tauto
    · have := ih b
      simp only [List.mem_cons] at this ⊢
      tauto

theorem maxByKey_le (b : String) (l : List String) :
    ∀ w ∈ b :: l, keyStr w ≤ keyStr (maxByKey b l) := by
  induction l generalizing b with
  | nil =>
    intro w hw
    have : w = b := by simpa using hw
    exact this ▸ le_refl _
  | cons v vs ih =>
    intro w hw
    unfold maxByKey
    split
    case isTrue h =>
      rcases List.mem_cons.mp hw with rfl | hw'
      · exact le_trans (le_of_lt h) (ih v v (List.mem_cons_self v vs))
      · exact ih v w hw'
    case isFalse h =>
      rcases List.mem_cons.mp hw with rfl | hw'
      · exact ih w w (List.mem_cons_self w vs)
      · rcases List.mem_cons.mp hw' with rfl | hw''
        · exact le_trans (not_lt.mp h) (ih b b (List.mem_cons_self b vs))
        · exact ih b w (List.mem_cons_of_mem b hw'')

/-- C8: `sort_versions` and `find_latest_compatible` never raise, whatever
malformed strings the list holds (the optional bounds themselves must be
parseable when truthy, as the source parses them): the invalid entries are
dropped, `sort` returns the sorted valid subset (a permutation of the valid
entries), and `find_latest_compatible` returns the maximum surviving entry
or `none`. -/
theorem sort_and_find_latest_never_raise (L : List String) (rev : Bool)
    (mx mn : Option String)
    (hmx : ∀ s, mx = some s → s ≠ "" → is_version_valid s = true)
    (hmn : ∀ s, mn = some s → s ≠ "" → is_version_valid s = true) :
    (sort_versions L rev = .ok (sort_versions_list L rev)
      ∧ (sort_versions_list L rev).Perm (L.filter is_version_valid))
    ∧ ∃ r, find_latest_compatible L mx mn = .ok r
      ∧ (r = none ↔ L.filter (latest_keep mx mn) = [])
      ∧ ∀ v, r = some v → v ∈ L.filter (latest_keep mx mn)
          ∧ ∀ w ∈ L.filter (latest_keep mx mn), keyStr w ≤ keyStr v := by
  refine ⟨⟨sort_versions_eq L rev, sort_versions_list_perm L rev⟩, ?_⟩
  have hc := collect_latest_eq hmx hmn L
  unfold find_latest_compatible
  rw [hc]
  cases hfl : L.filter (latest_keep mx mn) with
  | nil =>
    exact ⟨none, rfl, by simp, by simp⟩
  | cons v vs =>
    refine ⟨some (maxByKey v vs), rfl, by simp, ?_⟩
    intro w hw
    have hw' : maxByKey v vs = w := Option.some.inj hw
    exact hw' ▸ ⟨maxByKey_mem v vs, fun u hu => maxByKey_le v vs u hu⟩

/-- Witness for C8 at a concrete list containing a malformed entry. -/
theorem sort_and_find_latest_never_raise_witness :
    (sort_versions ["2.0.0", "junk!", "1.0.0"] true
        = .ok (sort_versions_list ["2.0.0", "junk!", "1.0.0"] true)
      ∧ (sort_versions_list ["2.0.0", "junk!", "1.0.0"] true).Perm
          (["2.0.0", "junk!", "1.0.0"].filter is_version_valid))
    ∧ ∃ r, find_latest_compatible ["2.0.0", "junk!", "1.0.0"] (some "3.0.0") none = .ok r
      ∧ (r = none ↔ ["2.0.0", "junk!", "1.0.0"].filter (latest_keep (some "3.0.0") none) = [])
      ∧ ∀ v, r = some v →
          v ∈ ["2.0.0", "junk!", "1.0.0"].filter (latest_keep (some "3.0.0") none)
          ∧ ∀ w ∈ ["2.0.0", "junk!", "1.0.0"].filter (latest_keep (some "3.0.0") none),
              keyStr w ≤ keyStr v :=
  sort_and_find_latest_never_raise ["2.0.0", "junk!", "1.0.0"] true (some "3.0.0") none
    (by intro s hs hne; rw [Option.some.injEq] at hs; subst hs; decide)
    (fun s hs => nomatch hs)

/-! ### Lemmas: the resolver scans -/

theorem contains_iff_mem {l : List String} {a : String} : l.contains a = true ↔ a ∈ l :=
  List.elem_iff

theorem not_maxExceededB_iff {d : String} {mx : Option String} :
    (!maxExceededB d mx) = true ↔ ∀ s, mx = some s → s ≠ "" → keyStr d ≤ keyStr s := by
  cases mx with
  | none => simp [maxExceededB]
  | some m =>
    by_cases hm : m.isEmpty = true
    · have hm' : m = "" := (String.isEmpty_iff m).mp hm
      subst hm'
      simp [maxExceededB, hm]
    · have hm' : m ≠ "" := fun h => hm (h ▸ rfl)
      simp only [maxExceededB, if_neg hm, Bool.not_eq_true', decide_eq_false_iff_not, not_lt]
      constructor
      · intro h s hs hne
        rw [← Option.some.inj hs]
        exact h
      · intro h
        exact h m rfl hm'

theorem matrixOk_mins {m : CompatibilityMatrix} (hm : matrixOk m = true) :
    ∀ p ∈ m.cann_versions, is_version_valid p.2.min_driver_version = true := by
  intro p hp
  simp only [matrixOk, entryOk, Bool.and_eq_true, List.all_eq_true] at hm
  exact (hm.2 p hp).1.1.1.1

theorem entry_version_errors_eq {env : EnvironmentInfo} {e : CANNVersionEntry}
    (hd : is_version_valid env.driver_version = true)
    (hmin : is_version_valid e.min_driver_version = true)
    (hmx : ∀ s, e.max_driver_version = some s → s ≠ "" → is_version_valid s = true) :
    entry_version_errors env e = .ok (entry_errs_list env e) := by
  unfold entry_version_errors entry_errs_list
  rw [is_compatible_eq_ok hd hmin, maxExceeded_eq hd hmx,
    decide_eq_decide.mpr (vcmp_nonneg_iff (parseVal env.driver_version)
      (parseVal e.min_driver_version))]
  rfl

theorem entry_errs_list_isEmpty (env : EnvironmentInfo) (e : CANNVersionEntry) :
    (entry_errs_list env e).isEmpty = entryPassB env e := by
  unfold entry_errs_list entryPassB
  generalize decide (keyStr e.min_driver_version ≤ keyStr env.driver_version) = b1
  generalize maxExceededB env.driver_version e.max_driver_version = b2
  generalize e.supported_os.contains env.os_name = b3
  generalize e.supported_npu.contains env.npu_type = b4
  generalize e.supported_arch.contains env.arch = b5
  cases b1 <;> cases b2 <;> cases b3 <;> cases b4 <;> cases b5 <;> rfl

theorem validate_scan_eq {env : EnvironmentInfo}
    (hd : is_version_valid env.driver_version = true) :
    ∀ {entries : List (String × CANNVersionEntry)},
      (∀ p ∈ entries, is_version_valid p.2.min_driver_version = true) →
      (∀ p ∈ entries, ∀ s, p.2.max_driver_version = some s → s ≠ "" →
        is_version_valid s = true) →
      validate_scan env entries =
        .ok ((entries.filter (fun p => entryPassB env p.2)).map Prod.fst,
          (entries.filter (fun p => entryPassB env p.2 && p.2.deprecated)).map
            (fun p => "CANN " ++ p.1 ++ " is deprecated"))
  | [], _, _ => rfl
  | (v, e) :: rest, hmins, hmaxs => by
    have ih := validate_scan_eq hd
      (fun p hp => hmins p (List.mem_cons_of_mem _ hp))
      (fun p hp => hmaxs p (List.mem_cons_of_mem _ hp))
    have hev := entry_version_errors_eq hd (hmins (v, e) (List.mem_cons_self _ _))
      (hmaxs (v, e) (List.mem_cons_self _ _))
    by_cases hp : entryPassB env e = true
    · by_cases hdep : e.deprecated = true
      · simp only [validate_scan, hev, ih, except_bind_ok, entry_errs_list_isEmpty,
          hp, hdep, List.filter_cons_of_pos, Bool.and_self, List.map_cons]
        rfl
      · have hdep' : e.deprecated = false := by simpa using hdep
        simp only [validate_scan, hev, ih, except_bind_ok, entry_errs_list_isEmpty,
          hp, hdep', List.filter_cons_of_pos, List.filter_cons_of_neg, Bool.and_false,
          Bool.false_eq_true, not_false_eq_true, List.map_cons]
        rfl
    · have hp' : entryPassB env e = false := by simpa using hp
      simp only [validate_scan, hev, ih, except_bind_ok, entry_errs_list_isEmpty, hp',
        List.filter_cons_of_neg, Bool.false_and, Bool.false_eq_true,
        not_false_eq_true]
      rfl

theorem validate_environment_eq {m : CompatibilityMatrix} {env : EnvironmentInfo}
    (hd : is_version_valid env.driver_version = true)
    (hmins : ∀ p ∈ m.cann_versions, is_version_valid p.2.min_driver_version = true)
    (hmaxs : maxBoundsOk m) :
    validate_environment m env =
      .ok ⟨(synthetic_errors m env).isEmpty,
        sort_versions_list (compat_list m env) true,
        synthetic_errors m env, warning_list m env⟩ := by
  unfold validate_environment
  rw [validate_scan_eq hd hmins hmaxs]
  show (do
    let sorted ← sort_versions (compat_list m env) true
    pure (⟨(synthetic_errors m env).isEmpty, sorted, synthetic_errors m env,
      warning_list m env⟩ : ValidationResult) : Except PyExc ValidationResult) = _
  rw [sort_versions_eq]
  rfl

theorem maxBoundsOk_of_b {m : CompatibilityMatrix} (h : maxBoundsOkB m = true) :
    maxBoundsOk m := by
  intro p hp s hs hne
  have hall := List.all_eq_true.mp h p hp
  rw [hs] at hall
  rw [Bool.or_eq_true] at hall
  rcases hall with h1 | h2
  · exact absurd ((String.isEmpty_iff s).mp h1) hne
  · exact h2

theorem maxExceededB_false_iff {d : String} {mx : Option String} :
    maxExceededB d mx = false ↔ ∀ s, mx = some s → s ≠ "" → keyStr d ≤ keyStr s := by
  rw [← Bool.not_eq_true']
  exact not_maxExceededB_iff

theorem entryPassB_iff {env : EnvironmentInfo} {e : CANNVersionEntry} :
    entryPassB env e = true ↔ entryPasses env e := by
  unfold entryPassB entryPasses
  simp only [Bool.and_eq_true, Bool.not_eq_true', decide_eq_true_eq,
    maxExceededB_false_iff, contains_iff_mem]
  tauto

theorem opt_filter_false_iff {xs : List String} {os : Option String} (hos : os ≠ some "") :
    ((optTruthy os && !(xs.contains (os.getD ""))) = false) ↔
      ∀ o, os = some o → o ∈ xs := by
  cases os with
  | none => simp [optTruthy]
  | some o =>
    have ho : o ≠ "" := fun h => hos (by rw [h])
    have ho' : o.isEmpty = false := by
      cases hoe : o.isEmpty
      · rfl
      · exact absurd ((String.isEmpty_iff o).mp hoe) ho
    simp [optTruthy, ho', contains_iff_mem]

theorem findPassB_iff {d : String} {os npu : Option String} {e : CANNVersionEntry}
    (hos : os ≠ some "") (hnpu : npu ≠ some "") :
    findPassB d os npu e = true ↔
      e.deprecated = false
      ∧ keyStr e.min_driver_version ≤ keyStr d
      ∧ (∀ s, e.max_driver_version = some s → s ≠ "" → keyStr d ≤ keyStr s)
      ∧ (∀ o, os = some o → o ∈ e.supported_os)
      ∧ (∀ n, npu = some n → n ∈ e.supported_npu) := by
  unfold findPassB
  simp only [Bool.and_eq_true, Bool.not_eq_true', decide_eq_true_eq,
    maxExceededB_false_iff, opt_filter_false_iff hos, opt_filter_false_iff hnpu]
  tauto

theorem find_compat_scan_eq (d : String) (os npu : Option String)
    (hd : is_version_valid d = true) :
    ∀ {entries : List (String × CANNVersionEntry)},
      (∀ p ∈ entries, is_version_valid p.2.min_driver_version = true) →
      (∀ p ∈ entries, ∀ s, p.2.max_driver_version = some s → s ≠ "" →
        is_version_valid s = true) →
      find_compat_scan d os npu entries =
        .ok ((entries.filter (fun p => findPassB d os npu p.2)).map Prod.fst)
  | [], _, _ => rfl
  | (v, e) :: rest, hmins, hmaxs => by
    have ih := find_compat_scan_eq d os npu hd
      (fun p hp => hmins p (List.mem_cons_of_mem _ hp))
      (fun p hp => hmaxs p (List.mem_cons_of_mem _ hp))
    have hmin := hmins (v, e) (List.mem_cons_self _ _)
    have hmax := hmaxs (v, e) (List.mem_cons_self _ _)
    have hcomp : is_compatible d e.min_driver_version
        = .ok (decide (keyStr e.min_driver_version ≤ keyStr d)) := by
      rw [is_compatible_eq_ok hd hmin,
        decide_eq_decide.mpr (vcmp_nonneg_iff (parseVal d) (parseVal e.min_driver_version))]
      try rfl
    by_cases hdep : e.deprecated = true
    · have hpassF : findPassB d os npu e = false := by
        simp only [findPassB, hdep, Bool.not_true, Bool.false_and]
      rw [List.filter_cons_of_neg (by simp [hpassF])]
      simp only [find_compat_scan, hdep, if_true, ih]
      try rfl
    · have hdep' : e.deprecated = false := by simpa using hdep
      by_cases h1 : decide (keyStr e.min_driver_version ≤ keyStr d) = true
      · by_cases h2 : maxExceededB d e.max_driver_version = true
        · have hpassF : findPassB d os npu e = false := by
            simp only [findPassB, h2, Bool.not_true, Bool.and_false, Bool.false_and]
          rw [List.filter_cons_of_neg (by simp [hpassF])]
          simp only [find_compat_scan, hdep', hcomp, except_bind_ok,
            maxExceeded_eq hd hmax, h1, h2, ih]
          try rfl
        · have h2' : maxExceededB d e.max_driver_version = false := by simpa using h2
          by_cases h3 : (optTruthy os && !(e.supported_os.contains (os.getD ""))) = true
          · have hpassF : findPassB d os npu e = false := by
              simp only [findPassB, h3, Bool.not_true, Bool.and_false, Bool.false_and]
            rw [List.filter_cons_of_neg (by simp [hpassF])]
            simp only [find_compat_scan, hdep', hcomp, except_bind_ok,
              maxExceeded_eq hd hmax, h1, h2', h3, ih]
            try rfl
          · have h3' : (optTruthy os && !(e.supported_os.contains (os.getD ""))) = false := by
              simpa using h3
            by_cases h4 : (optTruthy npu && !(e.supported_npu.contains (npu.getD ""))) = true
            · have hpassF : findPassB d os npu e = false := by
                simp only [findPassB, h4, Bool.not_true, Bool.and_false, Bool.false_and]
              rw [List.filter_cons_of_neg (by simp [hpassF])]
              simp only [find_compat_scan, hdep', hcomp, except_bind_ok,
                maxExceeded_eq hd hmax, h1, h2', h3', h4, ih]
              try rfl
            · have h4' : (optTruthy npu && !(e.supported_npu.contains (npu.getD ""))) = false := by
                simpa using h4
              have hpassT : findPassB d os npu e = true := by
                simp only [findPassB, hdep', h1, h2', h3', h4', Bool.not_false,
                  Bool.true_and, Bool.and_true]
              rw [List.filter_cons_of_pos (by simp [hpassT])]
              simp only [find_compat_scan, hdep', hcomp, except_bind_ok,
                maxExceeded_eq hd hmax, h1, h2', h3', h4', ih, List.map_cons]
              try rfl
      · have h1' : decide (keyStr e.min_driver_version ≤ keyStr d) = false := by
          simpa using h1
        have hpassF : findPassB d os npu e = false := by
          simp only [findPassB, h1', Bool.and_false, Bool.false_and]
        rw [List.filter_cons_of_neg (by simp [hpassF])]
        simp only [find_compat_scan, hdep', hcomp, except_bind_ok, h1', ih]
        try rfl

theorem find_compatible_cann_eq {m : CompatibilityMatrix} {d : String}
    {os npu : Option String}
    (hd : is_version_valid d = true)
    (hmins : ∀ p ∈ m.cann_versions, is_version_valid p.2.min_driver_version = true)
    (hmaxs : maxBoundsOk m) :
    find_compatible_cann m d os npu =
      .ok (sort_versions_list
        ((m.cann_versions.filter (fun p => findPassB d os npu p.2)).map Prod.fst) true) := by
  unfold find_compatible_cann
  rw [find_compat_scan_eq d os npu hd hmins hmaxs]
  show (sort_versions
      ((m.cann_versions.filter (fun p => findPassB d os npu p.2)).map Prod.fst) true
    : Except PyExc (List String)) = _
  exact sort_versions_eq _ _

theorem list_cann_versions_eq (m : CompatibilityMatrix) (incl : Bool) :
    list_cann_versions m incl =
      .ok (sort_versions_list
        ((m.cann_versions.filter (fun p => incl || !p.2.deprecated)).map Prod.fst) true) :=
  sort_versions_eq _ _

theorem get_cann_requirements_eq_not_found (m : CompatibilityMatrix) (cv : String)
    (hnf : get_cann_version m cv = none) :
    get_cann_requirements m cv = .ok ⟨false, none,
      some ("CANN version '" ++ cv ++ "' not found"),
      ["Available versions: " ++ String.intercalate ", "
        (sort_versions_list ((m.cann_versions.filter
          (fun p => false || !p.2.deprecated)).map Prod.fst) true)]⟩ := by
  unfold get_cann_requirements
  rw [hnf, list_cann_versions_eq]
  rfl

theorem get_cann_requirements_ok (m : CompatibilityMatrix) (cv : String) :
    ∃ q, get_cann_requirements m cv = .ok q := by
  cases hcv : get_cann_version m cv with
  | none => exact ⟨_, get_cann_requirements_eq_not_found m cv hcv⟩
  | some e =>
    refine ⟨⟨true, some ⟨cv, e.min_driver_version, e.max_driver_version, e.supported_os,
      e.supported_npu, e.supported_arch, e.frameworks.map Prod.fst, e.deprecated⟩,
      none, []⟩, ?_⟩
    unfold get_cann_requirements
    rw [hcv]
    rfl

theorem find_framework_config_ok (m : CompatibilityMatrix) (cv fw : String) :
    ∃ q, find_framework_config m cv fw = .ok q := by
  cases hcv : get_cann_version m cv with
  | none =>
    refine ⟨⟨false, none, some ("CANN version '" ++ cv ++ "' not found"),
      ["Available versions: " ++ String.intercalate ", "
        (sort_versions_list ((m.cann_versions.filter
          (fun p => false || !p.2.deprecated)).map Prod.fst) true)]⟩, ?_⟩
    unfold find_framework_config
    rw [hcv, list_cann_versions_eq]
    rfl
  | some e =>
    cases hfw : e.frameworks.lookup fw with
    | none =>
      refine ⟨⟨false, none,
        some ("Framework '" ++ fw ++ "' not available for CANN " ++ cv),
        ["Available frameworks: " ++ String.intercalate ", " (e.frameworks.map Prod.fst)]⟩, ?_⟩
      unfold find_framework_config
      simp only [hcv, hfw]
      rfl
    | some config =>
      refine ⟨⟨true, some ⟨fw, config.version, config.torch_npu_version,
        config.python_versions, config.whl_url, config.install_command⟩, none, []⟩, ?_⟩
      unfold find_framework_config
      simp only [hcv, hfw]
      rfl

/-- C4: for every environment whose driver version parses and every
constructed matrix (whose truthy max bounds parse), `validate_environment`
returns a result whose `valid` flag is true iff at least one matrix entry
satisfies all four predicates (driver within bounds, OS, NPU and
architecture membership), and whose error list is non-empty exactly when
`valid` is false. -/
theorem validate_environment_valid_iff (m : CompatibilityMatrix) (env : EnvironmentInfo)
    (hd : is_version_valid env.driver_version = true)
    (hm : matrixOk m = true) (hmx : maxBoundsOk m) :
    ∃ r, validate_environment m env = .ok r
      ∧ (r.valid = true ↔ ∃ p ∈ m.cann_versions, entryPasses env p.2)
      ∧ (r.errors ≠ [] ↔ r.valid = false) := by
  refine ⟨_, validate_environment_eq hd (matrixOk_mins hm) hmx, ?_, ?_⟩
  · show (synthetic_errors m env).isEmpty = true ↔ _
    unfold synthetic_errors
    by_cases hc : (compat_list m env).isEmpty = true
    · rw [if_pos hc]
      rw [List.isEmpty_iff] at hc
      refine iff_of_false (by simp) ?_
      rintro ⟨p, hp, hpass⟩
      have hvin : p.1 ∈ compat_list m env :=
        List.mem_map.mpr ⟨p, List.mem_filter.mpr ⟨hp, entryPassB_iff.mpr hpass⟩, rfl⟩
      rw [hc] at hvin
      exact absurd hvin (List.not_mem_nil _)
    · rw [if_neg hc]
      rw [Bool.not_eq_true, List.isEmpty_eq_false] at hc
      refine iff_of_true rfl ?_
      obtain ⟨v, hv⟩ := List.exists_mem_of_ne_nil _ hc
      obtain ⟨p, hpf, rfl⟩ := List.mem_map.mp hv
      have hf := List.mem_filter.mp hpf
      exact ⟨p, hf.1, entryPassB_iff.mp hf.2⟩
  · show synthetic_errors m env ≠ [] ↔ (synthetic_errors m env).isEmpty = false
    exact (List.isEmpty_eq_false).symm

/-- Witness for C4 at Scenario A: entry "8.0.0" matches the environment. -/
theorem validate_environment_valid_iff_witness :
    ∃ r, validate_environment scenarioMatrix scenarioEnv = .ok r
      ∧ (r.valid = true ↔ ∃ p ∈ scenarioMatrix.cann_versions, entryPasses scenarioEnv p.2)
      ∧ (r.errors ≠ [] ↔ r.valid = false) :=
  validate_environment_valid_iff scenarioMatrix scenarioEnv (by decide) (by decide)
    (maxBoundsOk_of_b (by decide))

/-- C6: a matrix entry that passes all four predicates and is deprecated is
still included in the compatible versions and contributes a warning rather
than an error; the witness instantiates Scenario D. -/
theorem validate_environment_deprecated_warns (m : CompatibilityMatrix)
    (env : EnvironmentInfo) (v : String) (e : CANNVersionEntry)
    (hd : is_version_valid env.driver_version = true)
    (hm : matrixOk m = true) (hmx : maxBoundsOk m)
    (hmem : (v, e) ∈ m.cann_versions) (hpass : entryPasses env e)
    (hdep : e.deprecated = true) (hv : is_version_valid v = true) :
    ∃ r, validate_environment m env = .ok r
      ∧ r.valid = true
      ∧ v ∈ r.compatible_cann_versions
      ∧ ("CANN " ++ v ++ " is deprecated") ∈ r.warnings := by
  have hvin : v ∈ compat_list m env :=
    List.mem_map.mpr ⟨(v, e), List.mem_filter.mpr ⟨hmem, entryPassB_iff.mpr hpass⟩, rfl⟩
  refine ⟨_, validate_environment_eq hd (matrixOk_mins hm) hmx, ?_, ?_, ?_⟩
  · show (synthetic_errors m env).isEmpty = true
    unfold synthetic_errors
    rw [if_neg]
    · rfl
    · intro hc
      rw [List.isEmpty_iff] at hc
      rw [hc] at hvin
      exact absurd hvin (List.not_mem_nil v)
  · show v ∈ sort_versions_list (compat_list m env) true
    exact mem_sort_versions_list.mpr ⟨hvin, hv⟩
  · show _ ∈ warning_list m env
    refine List.mem_map.mpr ⟨(v, e), List.mem_filter.mpr ⟨hmem, ?_⟩, rfl⟩
    rw [Bool.and_eq_true]
    exact ⟨entryPassB_iff.mpr hpass, hdep⟩

/-- Witness for C6, Scenario D: deprecated entry "6.3.0" matches, is listed
as compatible, and produces the warning "CANN 6.3.0 is deprecated". -/
theorem validate_environment_deprecated_warns_witness :
    ∃ r, validate_environment matrixScenarioD scenarioEnv = .ok r
      ∧ r.valid = true
      ∧ "6.3.0" ∈ r.compatible_cann_versions
      ∧ ("CANN " ++ "6.3.0" ++ " is deprecated") ∈ r.warnings :=
  validate_environment_deprecated_warns matrixScenarioD scenarioEnv "6.3.0" entry630
    (by decide) (by decide) (maxBoundsOk_of_b (by decide))
    (by decide) (entryPassB_iff.mp (by decide)) (by decide) (by decide)

/-- C5: `find_compatible_cann` returns exactly the matrix keys whose entry
is non-deprecated, within the driver bounds, and supporting the optional
OS/NPU filters when supplied, sorted in descending version order
(hypotheses: driver and matrix strings parse, keys parse, and supplied
filters are non-empty strings, mirroring Python truthiness). -/
theorem find_compatible_cann_spec (m : CompatibilityMatrix) (d : String)
    (os npu : Option String)
    (hd : is_version_valid d = true) (hm : matrixOk m = true) (hmx : maxBoundsOk m)
    (hkeys : ∀ p ∈ m.cann_versions, is_version_valid p.1 = true)
    (hos : os ≠ some "") (hnpu : npu ≠ some "") :
    ∃ l, find_compatible_cann m d os npu = .ok l
      ∧ (∀ v, v ∈ l ↔ ∃ e, (v, e) ∈ m.cann_versions ∧ e.deprecated = false
          ∧ keyStr e.min_driver_version ≤ keyStr d
          ∧ (∀ s, e.max_driver_version = some s → s ≠ "" → keyStr d ≤ keyStr s)
          ∧ (∀ o, os = some o → o ∈ e.supported_os)
          ∧ (∀ n, npu = some n → n ∈ e.supported_npu))
      ∧ l.Sorted vge := by
  refine ⟨_, find_compatible_cann_eq hd (matrixOk_mins hm) hmx, ?_,
    sort_versions_list_sorted_desc _⟩
  intro v
  rw [mem_sort_versions_list]
  constructor
  · rintro ⟨hvin, _⟩
    obtain ⟨p, hpf, rfl⟩ := List.mem_map.mp hvin
    have hf := List.mem_filter.mp hpf
    obtain ⟨g1, g2, g3, g4, g5⟩ := (findPassB_iff hos hnpu).mp hf.2
    exact ⟨p.2, hf.1, g1, g2, g3, g4, g5⟩
  · rintro ⟨e, hmem, g1, g2, g3, g4, g5⟩
    refine ⟨List.mem_map.mpr ⟨(v, e),
      List.mem_filter.mpr ⟨hmem, (findPassB_iff hos hnpu).mpr ⟨g1, g2, g3, g4, g5⟩⟩, rfl⟩,
      hkeys (v, e) hmem⟩

/-- Witness for C5 at the scenario matrix with both filters supplied. -/
theorem find_compatible_cann_spec_witness :
    ∃ l, find_compatible_cann scenarioMatrix "24.1.0" (some "ubuntu22.04") (some "910B") = .ok l
      ∧ (∀ v, v ∈ l ↔ ∃ e, (v, e) ∈ scenarioMatrix.cann_versions ∧ e.deprecated = false
          ∧ keyStr e.min_driver_version ≤ keyStr "24.1.0"
          ∧ (∀ s, e.max_driver_version = some s → s ≠ "" → keyStr "24.1.0" ≤ keyStr s)
          ∧ (∀ o, (some "ubuntu22.04" : Option String) = some o → o ∈ e.supported_os)
          ∧ (∀ n, (some "910B" : Option String) = some n → n ∈ e.supported_npu))
      ∧ l.Sorted vge :=
  find_compatible_cann_spec scenarioMatrix "24.1.0" (some "ubuntu22.04") (some "910B")
    (by decide) (by decide) (maxBoundsOk_of_b (by decide)) (by decide)
    (by decide) (by decide)

/-- C9: for a toolkit version absent from the matrix, `get_cann_requirements`
returns a failure `QueryResult` whose error contains "not found" and whose
suggestions list is the non-empty singleton naming the currently-known
(non-deprecated, sorted) versions. -/
theorem get_cann_requirements_not_found (m : CompatibilityMatrix) (cv : String)
    (hnf : get_cann_version m cv = none) :
    ∃ q avail, get_cann_requirements m cv = .ok q
      ∧ list_cann_versions m false = .ok avail
      ∧ q.success = false
      ∧ (∃ msg, q.error = some msg ∧ "not found".data <:+: msg.data)
      ∧ q.suggestions = ["Available versions: " ++ String.intercalate ", " avail]
      ∧ q.suggestions ≠ [] := by
  refine ⟨_, _, get_cann_requirements_eq_not_found m cv hnf, list_cann_versions_eq m false,
    rfl, ⟨_, rfl, ?_⟩, rfl, by simp⟩
  refine ⟨("CANN version '" ++ cv ++ "' ").data, [], ?_⟩
  have hxy : "' ".data ++ "not found".data = "' not found".data := by decide
  simp only [String.data_append, List.append_nil, List.append_assoc, hxy]

/-- Witness for C9: Scenario C with the unknown version "99.0.0". -/
theorem get_cann_requirements_not_found_witness :
    ∃ q avail, get_cann_requirements scenarioMatrix "99.0.0" = .ok q
      ∧ list_cann_versions scenarioMatrix false = .ok avail
      ∧ q.success = false
      ∧ (∃ msg, q.error = some msg ∧ "not found".data <:+: msg.data)
      ∧ q.suggestions = ["Available versions: " ++ String.intercalate ", " avail]
      ∧ q.suggestions ≠ [] :=
  get_cann_requirements_not_found scenarioMatrix "99.0.0" (by decide)

/-- C2 counterexample: `validate_environment` propagates the version
parser's `InvalidVersion` exception when the environment's driver version
string does not parse, instead of converting it into a failure value. -/
theorem validate_environment_raises_cex :
    validate_environment scenarioMatrix
        ⟨"not-a-version", "ubuntu22.04", "910B", "x86_64", none, 1⟩
      = .error (.invalidVersion "not-a-version") := by
  decide

/-- C2 amended: the result-style methods return plain result values and
never raise for lookup misses; `list_cann_versions`, `get_cann_requirements`
and `find_framework_config` never raise for any input, while
`find_compatible_cann` and `validate_environment` terminate normally
whenever the driver version parses and every truthy `max_driver_version`
bound of the (validly constructed) matrix parses — with an unparseable
driver version those two propagate `InvalidVersion`. -/
theorem result_style_methods_ok (m : CompatibilityMatrix) (env : EnvironmentInfo)
    (d cv fw : String) (incl : Bool) (os npu : Option String)
    (hd : is_version_valid d = true)
    (henv : is_version_valid env.driver_version = true)
    (hm : matrixOk m = true) (hmx : maxBoundsOk m) :
    (∃ l, list_cann_versions m incl = .ok l)
    ∧ (∃ q, get_cann_requirements m cv = .ok q)
    ∧ (∃ q, find_framework_config m cv fw = .ok q)
    ∧ (∃ l, find_compatible_cann m d os npu = .ok l)
    ∧ (∃ r, validate_environment m env = .ok r) :=
  ⟨⟨_, list_cann_versions_eq m incl⟩,
   get_cann_requirements_ok m cv,
   find_framework_config_ok m cv fw,
   ⟨_, find_compatible_cann_eq hd (matrixOk_mins hm) hmx⟩,
   ⟨_, validate_environment_eq henv (matrixOk_mins hm) hmx⟩⟩

/-- Witness for the amended C2 at concrete inputs. -/
theorem result_style_methods_ok_witness :
    (∃ l, list_cann_versions scenarioMatrix true = .ok l)
    ∧ (∃ q, get_cann_requirements scenarioMatrix "99.0.0" = .ok q)
    ∧ (∃ q, find_framework_config scenarioMatrix "99.0.0" "tensorflow" = .ok q)
    ∧ (∃ l, find_compatible_cann scenarioMatrix "24.1.0" none none = .ok l)
    ∧ (∃ r, validate_environment scenarioMatrix scenarioEnv = .ok r) :=
  result_style_methods_ok scenarioMatrix scenarioEnv "24.1.0" "99.0.0" "tensorflow"
    true none none (by decide) (by decide) (by decide) (maxBoundsOk_of_b (by decide))

set_option maxRecDepth 4000 in
/-- C1 (the code's max branch is a bug): below the minimum,
`check_driver_compatibility` raises `DriverIncompatibleError` whose message
contains both the driver string and the minimum (Scenario B); but above a
set maximum the constructor call
`DriverIncompatibleError(driver, cann, max_allowed=...)` raises `TypeError`
(no `max_allowed` parameter, `min_required` missing), contradicting the
method's documented `Raises: DriverIncompatibleError`. -/
theorem check_driver_compatibility_behavior :
    check_driver_compatibility scenarioMatrix "20.0.0" "8.0.0"
        = .error (.driverIncompatible "20.0.0" "8.0.0" "24.1.rc1")
    ∧ "20.0.0".data <:+: (driverIncompatibleMessage "20.0.0" "8.0.0" "24.1.rc1").data
    ∧ "24.1.rc1".data <:+: (driverIncompatibleMessage "20.0.0" "8.0.0" "24.1.rc1").data
    ∧ check_driver_compatibility scenarioMatrix "26.0.0" "9.0.0"
        = .error (.typeErr
            "DriverIncompatibleError() got an unexpected keyword argument max_allowed") := by
  refine ⟨by decide, by decide, by decide, by decide⟩

/-- C10: pydantic validates no key of `cann_versions`, so a matrix whose
only entry matching the environment sits under the unparseable key
"weird!!" passes construction; `validate_environment` then reports
`valid = true` while the final sort silently drops that key, producing an
empty `compatible_cann_versions` list, and `list_cann_versions` /
`find_compatible_cann` likewise omit the key. -/
theorem unvalidated_keys_reachable :
    matrixOk oddKeyMatrix = true
    ∧ is_version_valid "weird!!" = false
    ∧ validate_environment oddKeyMatrix scenarioEnv = .ok ⟨true, [], [], []⟩
    ∧ list_cann_versions oddKeyMatrix false = .ok ["8.0.0"]
    ∧ find_compatible_cann oddKeyMatrix "24.1.0" (some "ubuntu22.04") none = .ok [] := by
  refine ⟨by decide, by decide, by decide, by decide, by decide⟩
